import Mathlib

/-!
Verification development for `src/podcast_backup.ts` (Podcast-Archiver).

The TypeScript program is shallowly embedded: the loosely typed values
produced by the external XML-to-object parser are modelled by `JSValue`,
runtime exceptions by `JSError` threaded through `Except`, and the I/O
environment (HTTP fetch, filesystem writes, the XML parsing library) by an
oracle record `World`.  The functions `sanitizeFilename`, `downloadFile`,
`parseRSSFeed` and `backupPodcast` are translated line by line from the
source; state (files written, console lines, download attempts) is passed
explicitly through `RunState`.
-/

/-- A JavaScript number as it arises here: either `NaN` or an integer
(the program only ever produces integers via `parseInt`). -/
inductive JSNum where
  | nan
  | int (n : Int)
deriving DecidableEq, Repr

/-- A JavaScript runtime exception: either an `Error` instance carrying a
`.message`, or some other thrown value identified by its string form. -/
inductive JSError where
  | error (msg : String)
  | other (s : String)
deriving DecidableEq, Repr

/-- `error instanceof Error ? error.message : String(error)` (line 44 of the
source). -/
def errMessage : JSError → String
  | .error msg => msg
  | .other s => s

/-- Loosely typed JavaScript value, the shape produced by the external
XML-to-object parser (`parseXml`) and stored in `PodcastEpisode` fields. -/
inductive JSValue where
  | undefined
  | null
  | num (n : JSNum)
  | str (s : String)
  | obj (fields : List (String × JSValue))
  | arr (elems : List JSValue)

/-- JavaScript truthiness of a value. -/
def truthy : JSValue → Bool
  | .undefined => false
  | .null => false
  | .num .nan => false
  | .num (.int n) => n != 0
  | .str s => s != ""
  | .obj _ => true
  | .arr _ => true

/-- `a || b` in JavaScript: the first operand if truthy, otherwise the second. -/
def jsOr (a b : JSValue) : JSValue := if truthy a then a else b

/-- A value on which property access does not throw (anything but
`undefined`/`null`). -/
def notNullish : JSValue → Bool
  | .undefined => false
  | .null => false
  | _ => true

/-- JavaScript property access `v[k]`: a lookup on objects (absent keys give
`undefined`), `undefined` on other non-nullish values (the string keys used
by the program are never array indices), and a thrown `TypeError` on
`undefined`/`null`. -/
def getField : JSValue → String → Except JSError JSValue
  | .undefined, k => .error (.error ("Cannot read properties of undefined (reading " ++ k ++ ")"))
  | .null, k => .error (.error ("Cannot read properties of null (reading " ++ k ++ ")"))
  | .obj fl, k => .ok ((fl.lookup k).getD .undefined)
  | .num _, _ => .ok .undefined
  | .str _, _ => .ok .undefined
  | .arr _, _ => .ok .undefined

/-- Optional chaining `v?.[k]`: `undefined` when `v` is nullish, plain
access otherwise. -/
def optChainGet (v : JSValue) (k : String) : Except JSError JSValue :=
  match v with
  | .undefined => .ok .undefined
  | .null => .ok .undefined
  | v => getField v k

mutual

/-- JavaScript `ToString` of a value, as used by template literals and by
implicit coercion at `fetch`/`parseInt` call sites. -/
def jsToString : JSValue → String
  | .undefined => "undefined"
  | .null => "null"
  | .num JSNum.nan => "NaN"
  | .num (JSNum.int n) => toString n
  | .str s => s
  | .obj _ => "[object Object]"
  | .arr l => String.intercalate "," (jsElemStrs l)

/-- Element strings for `Array.prototype.toString` (a `join(",")` in which
`null` and `undefined` elements render as the empty string). -/
def jsElemStrs : List JSValue → List String
  | [] => []
  | JSValue.undefined :: rest => "" :: jsElemStrs rest
  | JSValue.null :: rest => "" :: jsElemStrs rest
  | v :: rest => jsToString v :: jsElemStrs rest

end

/-- The decimal fragment of JavaScript `parseInt`: leading whitespace is
skipped, an optional sign is read, then the longest leading run of decimal
digits; if that run is empty the result is `NaN`.  (The hexadecimal `0x`
prefix handling of the full builtin is not modelled; no input in this
development carries it.) -/
def parseIntStr (s : String) : JSNum :=
  let s1 := s.data.dropWhile Char.isWhitespace
  let (neg, s2) :=
    match s1 with
    | '-' :: rest => (true, rest)
    | '+' :: rest => (false, rest)
    | l => (false, l)
  let digits := s2.takeWhile Char.isDigit
  if digits.isEmpty then JSNum.nan
  else
    let v : Int := Int.ofNat (digits.foldl (fun acc c => acc * 10 + (c.toNat - 48)) 0)
    JSNum.int (if neg then -v else v)

/-- `parseInt(v)` on a loosely typed argument: coerce to string, then parse. -/
def jsParseInt (v : JSValue) : JSNum := parseIntStr (jsToString v)

/-- The character class `[a-z0-9]` with the `i` flag of the regex on line 26
of the source, expressed on code points: `a`–`z` (97–122), `A`–`Z` (65–90),
`0`–`9` (48–57). -/
def isAlnumCI (c : Char) : Bool :=
  (97 ≤ c.toNat && c.toNat ≤ 122) || (65 ≤ c.toNat && c.toNat ≤ 90) ||
    (48 ≤ c.toNat && c.toNat ≤ 57)

/-- One step of `filename.replace(/[^a-z0-9]/gi, "_")`. -/
def replaceNonAlnum (c : Char) : Char := if isAlnumCI c then c else '_'

/-- `toLowerCase` on one character, restricted to ASCII: the strings it is
applied to in the source contain only `[a-zA-Z0-9_]` after the regex
replacement, where Unicode lowercasing agrees with the ASCII rule. -/
def jsToLowerChar (c : Char) : Char :=
  if 65 ≤ c.toNat && c.toNat ≤ 90 then Char.ofNat (c.toNat + 32) else c

/-- Line 25–27 of the source:
`filename.replace(/[^a-z0-9]/gi, "_").toLowerCase()`. -/
def sanitizeFilename (s : String) : String :=
  String.mk ((s.data.map replaceNonAlnum).map jsToLowerChar)

/-- Modelled from the spec sentence for the sanitizer contract (one pass,
per character): every character outside `[a-z0-9]` case-insensitive is
replaced by `_`, and the result is lowercased.  Used to compare the source
function against the spec wording. -/
def specSanitizeChar (c : Char) : Char :=
  if isAlnumCI c then jsToLowerChar c else '_'

/-- Modelled from the spec: the sanitizer described in §4.1 as a single
per-character map. -/
def specSanitize (s : String) : String :=
  String.mk (s.data.map specSanitizeChar)

/-- Characters allowed by the regex `^[a-z0-9_]*$` of the spec. -/
def isSanitizedChar (c : Char) : Bool :=
  (97 ≤ c.toNat && c.toNat ≤ 122) || (48 ≤ c.toNat && c.toNat ≤ 57) ||
    c.toNat == 95

/-- Minimal JSON string escaping (quote and backslash); control-character
escapes are not modelled, no string in this development needs them. -/
def jsonEscape (s : String) : String :=
  String.mk (s.data.foldr
    (fun c acc =>
      if c = '"' then '\\' :: '"' :: acc
      else if c = '\\' then '\\' :: '\\' :: acc
      else c :: acc) [])

mutual

/-- `JSON.stringify` of a loosely typed value (whitespace/indentation of the
`null, 2` pretty-printing arguments is not modelled; nothing here depends on
it).  `undefined` object fields are skipped, `undefined` array elements and
`NaN` render as `null`, exactly as in JavaScript. -/
def jsonOfJSValue : JSValue → String
  | .undefined => "null"
  | .null => "null"
  | .num JSNum.nan => "null"
  | .num (JSNum.int n) => toString n
  | .str s => "\"" ++ jsonEscape s ++ "\""
  | .obj fl => "\x7b" ++ String.intercalate "," (jsonFieldStrs fl) ++ "\x7d"
  | .arr l => "[" ++ String.intercalate "," (jsonElemStrs l) ++ "]"

/-- Serialized `"key":value` strings of an object, skipping `undefined`
fields as `JSON.stringify` does. -/
def jsonFieldStrs : List (String × JSValue) → List String
  | [] => []
  | (_, JSValue.undefined) :: rest => jsonFieldStrs rest
  | (k, v) :: rest =>
      ("\"" ++ jsonEscape k ++ "\":" ++ jsonOfJSValue v) :: jsonFieldStrs rest

/-- Serialized elements of an array (`undefined` renders as `null`). -/
def jsonElemStrs : List JSValue → List String
  | [] => []
  | JSValue.undefined :: rest => "null" :: jsonElemStrs rest
  | v :: rest => jsonOfJSValue v :: jsonElemStrs rest

end

/-- The `PodcastEpisode` interface (lines 6–17 of the source).  The
TypeScript field types are not enforced at runtime, so the fields hold
whatever loosely typed values the parser extracted; `season`/`episode` are
`number | undefined`, with `none` standing for `undefined` (a field that
`JSON.stringify` omits). -/
structure PodcastEpisode where
  title : JSValue
  guid : JSValue
  pubDate : JSValue
  duration : JSValue
  description : JSValue
  link : JSValue
  imageUrl : JSValue
  audioUrl : JSValue
  season : Option JSNum
  episode : Option JSNum

/-- The `DownloadResult` interface (lines 19–22 of the source). -/
structure DownloadResult where
  success : Bool
  error : Option String
deriving DecidableEq, Repr

/-- Content of a file on disk: `Deno.writeFile` stores bytes,
`Deno.writeTextFile` stores text. -/
inductive FileContent where
  | bytes (b : List Nat)
  | text (s : String)
deriving DecidableEq, Repr

/-- The filesystem: newest write first, reads take the first match, so a
later write to the same path overwrites the earlier one. -/
abbrev FS := List (String × FileContent)

/-- Read a path from the filesystem. -/
def fsRead (fs : FS) (p : String) : Option FileContent := fs.lookup p

/-- An HTTP response as the program observes it: `ok`/`status`/`statusText`,
the body as bytes (`arrayBuffer`) and as text (`text`). -/
structure FetchResponse where
  ok : Bool
  status : Nat
  statusText : String
  bodyBytes : List Nat
  bodyText : String

/-- Outcome of `fetch(url)`: a thrown network error or a response. -/
inductive FetchOutcome where
  | throws (e : JSError)
  | resp (r : FetchResponse)

/-- The I/O environment: what `fetch` does per URL, whether a filesystem
write to a given path throws (and with what), and what the external
`parseXml` library returns per input text. -/
structure World where
  fetch : String → FetchOutcome
  writeErr : String → Option JSError
  parseXml : String → Except JSError JSValue

/-- Run-time observable state of one run: files written, console lines
(`console.log` and `console.error` interleaved, newest first), and the
download attempts `(url, filepath)` issued, newest first. -/
structure RunState where
  fs : FS
  log : List String
  downloads : List (String × String)

/-- The state at process start. -/
def initState : RunState := { fs := [], log := [], downloads := [] }

/-- Append a console line. -/
def logLine (st : RunState) (m : String) : RunState := { st with log := m :: st.log }

/-- `join(a, b)` of the path library, for the simple relative segments used
here (no normalization is needed or modelled). -/
def pathJoin (a b : String) : String := a ++ "/" ++ b

/-- The `try` block of `downloadFile` (lines 31–40 of the source): fetch,
throw on a non-ok status with the status line in the message, read the body
and write it to `filepath`. -/
def downloadFileTry (w : World) (url filepath : String) (st : RunState) :
    Except JSError RunState :=
  match w.fetch url with
  | .throws e => .error e
  | .resp response =>
    if !response.ok then
      .error (.error ("Failed to download: " ++ toString response.status ++ " "
        ++ response.statusText))
    else
      match w.writeErr filepath with
      | some e => .error e
      | none => .ok { st with fs := (filepath, .bytes response.bodyBytes) :: st.fs }

/-- `downloadFile` (lines 30–47 of the source): every exception of the try
block is caught and converted into a failure `DownloadResult` carrying
`error.message` (or the string form of a non-`Error` value); the only
output channel is the returned result.  The attempted `(url, filepath)`
pair is recorded in the run state. -/
def downloadFile (w : World) (url filepath : String) (st : RunState) :
    DownloadResult × RunState :=
  let st := { st with downloads := (url, filepath) :: st.downloads }
  match downloadFileTry w url filepath st with
  | .ok st1 => ({ success := true, error := none }, st1)
  | .error e => ({ success := false, error := some (errMessage e) }, st)

/-- One item of the feed mapped to a `PodcastEpisode` (the callback of
`items.map`, lines 54–67 of the source), with every property access in the
source's left-to-right evaluation order. -/
def parseItem (item : JSValue) : Except JSError PodcastEpisode := do
  let titleV ← getField item "title"
  let guidNode ← getField item "guid"
  let guidText ← getField guidNode "#text"
  let pubDateV ← getField item "pubDate"
  let durationV ← getField item "itunes:duration"
  let descriptionV ← getField item "description"
  let linkV ← getField item "link"
  let imageNode ← getField item "itunes:image"
  let hrefV ← optChainGet imageNode "@href"
  let enclosureV ← getField item "enclosure"
  let audioUrlV ← getField enclosureV "@url"
  let seasonV ← getField item "itunes:season"
  let episodeV ← getField item "itunes:episode"
  .ok {
    title := titleV
    guid := jsOr guidText guidNode
    pubDate := pubDateV
    duration := durationV
    description := descriptionV
    link := linkV
    imageUrl := jsOr hrefV (.str "")
    audioUrl := audioUrlV
    season := if truthy seasonV then some (jsParseInt seasonV) else none
    episode := if truthy episodeV then some (jsParseInt episodeV) else none
  }

/-- `items.map(item => ...)` with the throwing callback `parseItem`: the
callback runs on the elements in order and the first exception propagates
out of `.map`. -/
def mapItems : List JSValue → Except JSError (List PodcastEpisode)
  | [] => .ok []
  | item :: rest => do
    let ep ← parseItem item
    let eps ← mapItems rest
    .ok (ep :: eps)

/-- `doc.rss.channel.item` (line 52 of the source). -/
def channelItems (doc : JSValue) : Except JSError JSValue := do
  let rssV ← getField doc "rss"
  let channelV ← getField rssV "channel"
  getField channelV "item"

/-- `parseRSSFeed` (lines 50–69 of the source): parse the text through the
external XML library, take `doc.rss.channel.item`, and call `.map` on it —
which succeeds only when the value actually is an array (a single-item feed
yields a plain object here and throws, as `.map` is not a function on it). -/
def parseRSSFeed (w : World) (xmlContent : String) :
    Except JSError (List PodcastEpisode) := do
  let doc ← w.parseXml xmlContent
  let items ← channelItems doc
  match items with
  | .arr elems => mapItems elems
  | .undefined => .error (.error "Cannot read properties of undefined (reading map)")
  | .null => .error (.error "Cannot read properties of null (reading map)")
  | _ => .error (.error "items.map is not a function")

/-- JavaScript `String.prototype.split` with a one-character separator,
modelled on the character list: splits at every occurrence of `sep`, so the
result is never empty and adjacent separators produce empty parts
(`"" → [""]`, `"a..b" → ["a","","b"]`). -/
def splitChars (sep : Char) : List Char → List (List Char)
  | [] => [[]]
  | c :: cs =>
    if c = sep then [] :: splitChars sep cs
    else
      match splitChars sep cs with
      | [] => [[c]]
      | h :: t => (c :: h) :: t

/-- `episode.imageUrl.split(".").pop()` (line 106 of the source): `.split`
is only a function on strings; `pop` of the split parts is the last of
them (`undefined` only on an empty array, which `split` never returns). -/
def jsSplitDotPop : JSValue → Except JSError JSValue
  | .str s =>
      .ok (match (splitChars '.' s.data).getLast? with
           | some part => .str (String.mk part)
           | none => .undefined)
  | _ => .error (.error "episode.imageUrl.split is not a function")

/-- `sanitizeFilename(episode.title)` on the loosely typed title: `replace`
is only a function on strings. -/
def sanitizeFilenameJS : JSValue → Except JSError String
  | .str s => .ok (sanitizeFilename s)
  | _ => .error (.error "filename.replace is not a function")

/-- JSON text written for one episode (line 117 of the source,
`JSON.stringify(episode, null, 2)`): the object literal's keys in
construction order, with the `undefined`-valued optional fields omitted. -/
def stringifyEpisode (ep : PodcastEpisode) : String :=
  jsonOfJSValue (.obj
    ([("title", ep.title), ("guid", ep.guid), ("pubDate", ep.pubDate),
      ("duration", ep.duration), ("description", ep.description),
      ("link", ep.link), ("imageUrl", ep.imageUrl), ("audioUrl", ep.audioUrl)]
     ++ (match ep.season with
         | some n => [("season", JSValue.num n)]
         | none => [])
     ++ (match ep.episode with
         | some n => [("episode", JSValue.num n)]
         | none => [])))

/-- The image sub-step of one episode (lines 104–113 of the source): derive
the extension from `split(".").pop() || "jpg"`, download, log, and log the
error on failure — the failure is consumed, not rethrown. -/
def imageStep (w : World) (imageDir baseFilename : String) (ep : PodcastEpisode)
    (st : RunState) : Except (JSError × RunState) RunState :=
  match jsSplitDotPop ep.imageUrl with
  | .error e => .error (e, st)
  | .ok popped =>
    let imageExt := jsOr popped (.str "jpg")
    let imagePath := pathJoin imageDir (baseFilename ++ "." ++ jsToString imageExt)
    let (imageResult, st1) := downloadFile w (jsToString ep.imageUrl) imagePath st
    let st2 := logLine st1 ("Image download "
      ++ (if imageResult.success then "successful" else "failed")
      ++ ": " ++ jsToString ep.title)
    if imageResult.success then .ok st2
    else .ok (logLine st2 ("Error downloading image: "
      ++ (imageResult.error.getD "undefined")))

/-- The audio sub-step of one episode (lines 94–102 of the source):
download if `audioUrl` is truthy, log the outcome, log the error on
failure — the failure is consumed, not rethrown. -/
def audioStep (w : World) (audioDir baseFilename : String) (ep : PodcastEpisode)
    (st : RunState) : RunState :=
  if truthy ep.audioUrl then
    let audioPath := pathJoin audioDir (baseFilename ++ ".mp3")
    let (audioResult, st1) := downloadFile w (jsToString ep.audioUrl) audioPath st
    let st2 := logLine st1 ("Audio download "
      ++ (if audioResult.success then "successful" else "failed")
      ++ ": " ++ jsToString ep.title)
    if audioResult.success then st2
    else logLine st2 ("Error downloading audio: " ++ (audioResult.error.getD "undefined"))
  else st

/-- The metadata sub-step of one episode (lines 115–118 of the source):
`Deno.writeTextFile` of the serialized episode — the only per-episode
operation whose exception is not consumed locally. -/
def jsonStep (w : World) (jsonDir baseFilename : String) (ep : PodcastEpisode)
    (st : RunState) : Except (JSError × RunState) RunState :=
  let jsonPath := pathJoin jsonDir (baseFilename ++ ".json")
  match w.writeErr jsonPath with
  | some e => .error (e, st)
  | none =>
    let st4 := { st with fs := (jsonPath, .text (stringifyEpisode ep)) :: st.fs }
    .ok (logLine st4 ("JSON metadata saved: " ++ jsToString ep.title))

/-- The body of the episode loop (lines 89–119 of the source) for one
episode: log, sanitize the title, download audio if `audioUrl` is truthy
(continuing past failure), download the image if `imageUrl` is truthy
(continuing past failure), then write the JSON metadata file — the only
sub-step whose exception is not consumed locally and so propagates to the
orchestrator's top-level catch. -/
def processEpisode (w : World) (audioDir imageDir jsonDir : String)
    (ep : PodcastEpisode) (st : RunState) : Except (JSError × RunState) RunState :=
  let st := logLine st ("Processing episode: " ++ jsToString ep.title)
  match sanitizeFilenameJS ep.title with
  | .error e => .error (e, st)
  | .ok baseFilename =>
    let st := audioStep w audioDir baseFilename ep st
    match (if truthy ep.imageUrl then imageStep w imageDir baseFilename ep st
           else .ok st) with
    | .error es => .error es
    | .ok st3 => jsonStep w jsonDir baseFilename ep st3

/-- The `for (const episode of episodes)` loop: strictly sequential, each
episode's processing starts only after the previous one finished; an
uncaught exception aborts the rest of the loop. -/
def processEpisodes (w : World) (audioDir imageDir jsonDir : String) :
    List PodcastEpisode → RunState → Except (JSError × RunState) RunState
  | [], st => .ok st
  | ep :: rest, st =>
    match processEpisode w audioDir imageDir jsonDir ep st with
    | .error es => .error es
    | .ok st1 => processEpisodes w audioDir imageDir jsonDir rest st1

/-- The `try` block of `backupPodcast` (lines 73–121 of the source):
directory setup (`ensureDir`, idempotent creation, modelled as a no-op on
this filesystem abstraction), feed fetch as text (the status is not
checked), parse, the episode loop, and the completion line. -/
def backupPodcastTry (w : World) (rssUrl outputDir : String) (st : RunState) :
    Except (JSError × RunState) RunState :=
  let audioDir := pathJoin outputDir "audio"
  let imageDir := pathJoin outputDir "images"
  let jsonDir := pathJoin outputDir "json"
  match w.fetch rssUrl with
  | .throws e => .error (e, st)
  | .resp response =>
    let xmlContent := response.bodyText
    match parseRSSFeed w xmlContent with
    | .error e => .error (e, st)
    | .ok episodes =>
      match processEpisodes w audioDir imageDir jsonDir episodes st with
      | .error es => .error es
      | .ok st1 => .ok (logLine st1 "Backup completed successfully!")

/-- `backupPodcast` (lines 72–125 of the source): the whole body runs inside
one `try`; any exception is caught and logged as the fatal line, and the
function returns normally either way. -/
def backupPodcast (w : World) (rssUrl outputDir : String) : RunState :=
  match backupPodcastTry w rssUrl outputDir initState with
  | .ok st => st
  | .error (e, st) => logLine st ("Error during backup: " ++ errMessage e)

/-! Concrete scenario data: feeds, items and worlds used to evaluate the
program at specific inputs. -/

/-- A well-formed feed item with a text-wrapper guid and no image. -/
def itemC1a : JSValue := .obj
  [("title", .str "Episode One"), ("guid", .obj [("#text", .str "g1")]),
   ("pubDate", .str "Mon"), ("itunes:duration", .str "10:00"),
   ("description", .str "d1"), ("link", .str "l1"),
   ("enclosure", .obj [("@url", .str "http://a1")])]

/-- A second well-formed feed item with a plain-string guid. -/
def itemC1b : JSValue := .obj
  [("title", .str "Episode Two"), ("guid", .str "g2"),
   ("pubDate", .str "Tue"), ("itunes:duration", .str "11:00"),
   ("description", .str "d2"), ("link", .str "l2"),
   ("enclosure", .obj [("@url", .str "http://a2")])]

/-- The episode record `parseItem` produces for `itemC1a`. -/
def epC1a : PodcastEpisode :=
  { title := .str "Episode One", guid := .str "g1", pubDate := .str "Mon",
    duration := .str "10:00", description := .str "d1", link := .str "l1",
    imageUrl := .str "", audioUrl := .str "http://a1",
    season := none, episode := none }

/-- The episode record `parseItem` produces for `itemC1b`. -/
def epC1b : PodcastEpisode :=
  { title := .str "Episode Two", guid := .str "g2", pubDate := .str "Tue",
    duration := .str "11:00", description := .str "d2", link := .str "l2",
    imageUrl := .str "", audioUrl := .str "http://a2",
    season := none, episode := none }

/-- A two-item feed document as the XML library returns it (two or more
`<item>` children yield an array). -/
def docTwo : JSValue := .obj
  [("rss", .obj [("channel", .obj [("item", .arr [itemC1a, itemC1b])])])]

/-- World for the end-to-end scenario of claim C1: the feed fetch succeeds,
episode 1's audio URL returns HTTP 404, episode 2's audio URL returns
HTTP 200 with body bytes `[1, 2, 3]`, and filesystem writes succeed. -/
def wC1 : World where
  fetch := fun u =>
    if u = "https://feed" then
      .resp { ok := true, status := 200, statusText := "OK", bodyBytes := [],
              bodyText := "FEEDXML" }
    else if u = "http://a1" then
      .resp { ok := false, status := 404, statusText := "Not Found",
              bodyBytes := [], bodyText := "" }
    else if u = "http://a2" then
      .resp { ok := true, status := 200, statusText := "OK",
              bodyBytes := [1, 2, 3], bodyText := "" }
    else .throws (.error "network down")
  writeErr := fun _ => none
  parseXml := fun x =>
    if x = "FEEDXML" then .ok docTwo else .error (.error "bad xml")

/-- A feed document with exactly one `<item>`: the generic XML-to-object
parser yields the item object itself at `rss.channel.item`, not a
one-element array. -/
def docSingle : JSValue := .obj
  [("rss", .obj [("channel", .obj [("item", itemC1a)])])]

/-- World for the single-item feed scenario of claim C5. -/
def wC5 : World where
  fetch := fun u =>
    if u = "https://feed" then
      .resp { ok := true, status := 200, statusText := "OK", bodyBytes := [],
              bodyText := "FEEDXML" }
    else .throws (.error "network down")
  writeErr := fun _ => none
  parseXml := fun x =>
    if x = "FEEDXML" then .ok docSingle else .error (.error "bad xml")

/-- Feed item whose `itunes:season` text is present and truthy but not a
parseable number. -/
def itemC6 : JSValue := .obj
  [("title", .str "Episode One"), ("guid", .str "g1"),
   ("pubDate", .str "Mon"), ("itunes:duration", .str "10:00"),
   ("description", .str "d1"), ("link", .str "l1"),
   ("enclosure", .obj [("@url", .str "http://a1")]),
   ("itunes:season", .str "abc")]

/-- Fields of a well-formed item carrying `itunes:season` 3, used to
instantiate the season/episode extraction rule. -/
def flC6w : List (String × JSValue) :=
  [("title", .str "T"), ("guid", .str "g"), ("pubDate", .str "Mon"),
   ("itunes:duration", .str "10:00"), ("description", .str "d"),
   ("link", .str "l"), ("enclosure", .obj [("@url", .str "http://a")]),
   ("itunes:season", .str "3")]

/-- The episode record `parseItem` produces for `JSValue.obj flC6w`. -/
def epC6w : PodcastEpisode :=
  { title := .str "T", guid := .str "g", pubDate := .str "Mon",
    duration := .str "10:00", description := .str "d", link := .str "l",
    imageUrl := .str "", audioUrl := .str "http://a",
    season := some (.int 3), episode := none }

/-- Feed item whose image URL contains no dot at all. -/
def itemC7 : JSValue := .obj
  [("title", .str "Episode One"), ("guid", .str "g1"),
   ("pubDate", .str "Mon"), ("itunes:duration", .str "10:00"),
   ("description", .str "d1"), ("link", .str "l1"),
   ("itunes:image", .obj [("@href", .str "imagefile")]),
   ("enclosure", .obj [("@url", .str "http://a1")])]

/-- One-item feed document around `itemC7`. -/
def docC7 : JSValue := .obj
  [("rss", .obj [("channel", .obj [("item", .arr [itemC7])])])]

/-- World for the no-dot image URL scenario of claim C7: every fetch
succeeds, all writes succeed. -/
def wC7 : World where
  fetch := fun u =>
    if u = "https://feed" then
      .resp { ok := true, status := 200, statusText := "OK", bodyBytes := [],
              bodyText := "FEEDXML" }
    else
      .resp { ok := true, status := 200, statusText := "OK",
              bodyBytes := [7], bodyText := "" }
  writeErr := fun _ => none
  parseXml := fun x =>
    if x = "FEEDXML" then .ok docC7 else .error (.error "bad xml")

/-- Episode with a dotted image URL, used to instantiate the extension
rule at a concrete input. -/
def epC7w : PodcastEpisode :=
  { title := .str "T", guid := .str "g", pubDate := .str "Mon",
    duration := .str "10:00", description := .str "d", link := .str "l",
    imageUrl := .str "pic.png", audioUrl := .str "http://a",
    season := none, episode := none }

/-- World for the metadata-write-failure scenario of claim C8: the feed and
both audio downloads succeed, but writing episode 1's JSON metadata file
throws. -/
def wC8 : World where
  fetch := fun u =>
    if u = "https://feed" then
      .resp { ok := true, status := 200, statusText := "OK", bodyBytes := [],
              bodyText := "FEEDXML" }
    else
      .resp { ok := true, status := 200, statusText := "OK",
              bodyBytes := [7], bodyText := "" }
  writeErr := fun p =>
    if p = "./out/json/episode_one.json" then some (.error "disk full") else none
  parseXml := fun x =>
    if x = "FEEDXML" then .ok docTwo else .error (.error "bad xml")

/-- One-item feed document around `itemC1a`. -/
def docOneArr : JSValue := .obj
  [("rss", .obj [("channel", .obj [("item", .arr [itemC1a])])])]

/-- World for the witness of the amended claim C8: the single episode's
audio download fails with HTTP 404, every filesystem write succeeds. -/
def wC8w : World where
  fetch := fun u =>
    if u = "https://feed" then
      .resp { ok := true, status := 200, statusText := "OK", bodyBytes := [],
              bodyText := "FEEDXML" }
    else
      .resp { ok := false, status := 404, statusText := "Not Found",
              bodyBytes := [], bodyText := "" }
  writeErr := fun _ => none
  parseXml := fun x =>
    if x = "FEEDXML" then .ok docOneArr else .error (.error "bad xml")

/-- World in which every fetch throws a network error. -/
def wFatal : World where
  fetch := fun _ => .throws (.error "boom")
  writeErr := fun _ => none
  parseXml := fun _ => .error (.error "bad xml")

/-- Fields of an otherwise well-formed item that lacks an `enclosure`
element. -/
def flNoEnc : List (String × JSValue) :=
  [("title", .str "Episode Two"), ("guid", .str "g2"),
   ("pubDate", .str "Tue"), ("itunes:duration", .str "11:00"),
   ("description", .str "d2"), ("link", .str "l2")]

/-- Two-item feed document whose second item lacks an enclosure. -/
def docC10 : JSValue := .obj
  [("rss", .obj [("channel", .obj [("item", .arr [itemC1a, .obj flNoEnc])])])]

/-- World for the missing-enclosure scenario of claim C10. -/
def wC10 : World where
  fetch := fun u =>
    if u = "https://feed" then
      .resp { ok := true, status := 200, statusText := "OK", bodyBytes := [],
              bodyText := "FEEDXML" }
    else
      .resp { ok := true, status := 200, statusText := "OK",
              bodyBytes := [7], bodyText := "" }
  writeErr := fun _ => none
  parseXml := fun x =>
    if x = "FEEDXML" then .ok docC10 else .error (.error "bad xml")

/-- World whose downloads all succeed with body `[9]` against the two-item
feed, used for claim C3/C4 instantiations. -/
def wOk : World where
  fetch := fun u =>
    if u = "http://404" then
      .resp { ok := false, status := 404, statusText := "Not Found",
              bodyBytes := [], bodyText := "" }
    else if u = "http://throw" then .throws (.other "socket hangup")
    else
      .resp { ok := true, status := 200, statusText := "OK",
              bodyBytes := [9], bodyText := "" }
  writeErr := fun p => if p = "/readonly/f" then some (.error "EACCES") else none
  parseXml := fun _ => .error (.error "bad xml")

/-- An episode is processable without an uncaught exception when its title
is a string (so `replace` exists) and its image URL is either falsy or a
string (so `split` exists when reached). -/
def processableEpisode (ep : PodcastEpisode) : Prop :=
  (∃ t, ep.title = JSValue.str t) ∧
    (truthy ep.imageUrl = false ∨ ∃ s, ep.imageUrl = JSValue.str s)

/-- Observable state of a possibly-thrown computation: the partial effects
before a throw persist (JavaScript `try`/`catch` does not roll back side
effects). -/
def stateOf : Except (JSError × RunState) RunState → RunState
  | .ok st => st
  | .error (_, st) => st

/-- The value `episode.imageUrl.split(".").pop() || "jpg"` evaluates to on
a string URL: the last `.`-separated segment, or `"jpg"` when that segment
is empty. -/
def imageExtOf (s : String) : String :=
  let seg := String.mk ((splitChars '.' s.data).getLast?.getD [])
  if seg = "" then "jpg" else seg

theorem toNat_ofNat_valid {n : Nat} (h : n.isValidChar) : (Char.ofNat n).toNat = n := by
  rw [Char.ofNat, dif_pos h]; rfl

theorem toNat_jsToLowerChar (c : Char) :
    (jsToLowerChar c).toNat =
      if 65 ≤ c.toNat ∧ c.toNat ≤ 90 then c.toNat + 32 else c.toNat := by
  unfold jsToLowerChar
  by_cases h : 65 ≤ c.toNat ∧ c.toNat ≤ 90
  · have hb : (decide (65 ≤ c.toNat) && decide (c.toNat ≤ 90)) = true := by
      simp [h.1, h.2]
    simp only [hb, if_true, if_pos h]
    exact toNat_ofNat_valid (Or.inl (by omega))
  · have hb : (decide (65 ≤ c.toNat) && decide (c.toNat ≤ 90)) = false := by
      rw [Bool.and_eq_false_iff]
      rcases Decidable.not_and_iff_or_not.mp h with h1 | h1
      · exact Or.inl (by simpa using h1)
      · exact Or.inr (by simpa using h1)
    simp [hb, h]

theorem sanitizedChar_ok (c : Char) :
    isSanitizedChar (jsToLowerChar (replaceNonAlnum c)) = true := by
  unfold replaceNonAlnum
  by_cases h : isAlnumCI c = true
  · rw [if_pos h]
    unfold isAlnumCI at h
    simp only [Bool.or_eq_true, Bool.and_eq_true, decide_eq_true_eq] at h
    unfold isSanitizedChar
    rw [toNat_jsToLowerChar]
    simp only [Bool.or_eq_true, Bool.and_eq_true, decide_eq_true_eq, beq_iff_eq]
    split <;> omega
  · rw [if_neg h]
    decide

theorem sanitize_char_eq_spec (c : Char) :
    jsToLowerChar (replaceNonAlnum c) = specSanitizeChar c := by
  unfold replaceNonAlnum specSanitizeChar
  by_cases h : isAlnumCI c = true
  · rw [if_pos h, if_pos h]
  · rw [if_neg h, if_neg h]
    decide

theorem sanitize_eq_spec (s : String) : sanitizeFilename s = specSanitize s := by
  unfold sanitizeFilename specSanitize
  rw [List.map_map]
  congr 1
  exact List.map_congr_left (fun c _ => sanitize_char_eq_spec c)

/-- C2: `sanitizeFilename` outputs only `[a-z0-9_]`, preserves length,
equals the per-character replace-then-lowercase map of the spec, maps the
spec's example to its stated value, and identifies any two inputs that the
spec map identifies. -/
theorem sanitizeFilename_contract (s : String) :
    (sanitizeFilename s).data.all isSanitizedChar = true ∧
    (sanitizeFilename s).length = s.length ∧
    sanitizeFilename s = specSanitize s ∧
    sanitizeFilename "Ep. 5: A/B Test!" = "ep__5__a_b_test_" ∧
    (∀ t : String, specSanitize s = specSanitize t →
      sanitizeFilename s = sanitizeFilename t) := by
  refine ⟨?_, ?_, sanitize_eq_spec s, by rfl, ?_⟩
  · rw [List.all_eq_true]
    intro c hc
    unfold sanitizeFilename at hc
    simp only [List.mem_map] at hc
    obtain ⟨c1, ⟨c0, _, rfl⟩, rfl⟩ := hc
    exact sanitizedChar_ok c0
  · unfold sanitizeFilename
    show ((s.data.map replaceNonAlnum).map jsToLowerChar).length = s.data.length
    rw [List.length_map, List.length_map]
  · intro t h
    rw [sanitize_eq_spec s, sanitize_eq_spec t, h]

/-- Witness for C2 at concrete inputs: the spec map identifies `"A-b"` and
`"a b"`, and the sanitizer then produces identical outputs for them. -/
theorem sanitizeFilename_contract_witness :
    specSanitize "A-b" = specSanitize "a b" ∧
    sanitizeFilename "A-b" = sanitizeFilename "a b" :=
  ⟨by decide, (sanitizeFilename_contract "A-b").2.2.2.2 "a b" (by decide)⟩

/-- C1: against the two-item feed in which episode 1's audio URL returns
HTTP 404 and episode 2's returns HTTP 200 with body `[1, 2, 3]`, the run
writes JSON metadata for both episodes, an audio file only for episode 2,
continues to episode 2 after episode 1's failure, and logs the completion
line. -/
theorem backup_partial_failure_run :
    fsRead (backupPodcast wC1 "https://feed" "./out").fs
      "./out/json/episode_one.json" ≠ none ∧
    fsRead (backupPodcast wC1 "https://feed" "./out").fs
      "./out/json/episode_two.json" ≠ none ∧
    fsRead (backupPodcast wC1 "https://feed" "./out").fs
      "./out/audio/episode_two.mp3" = some (.bytes [1, 2, 3]) ∧
    fsRead (backupPodcast wC1 "https://feed" "./out").fs
      "./out/audio/episode_one.mp3" = none ∧
    "Audio download failed: Episode One" ∈
      (backupPodcast wC1 "https://feed" "./out").log ∧
    "Processing episode: Episode Two" ∈
      (backupPodcast wC1 "https://feed" "./out").log ∧
    (backupPodcast wC1 "https://feed" "./out").log.head? =
      some "Backup completed successfully!" := by
  decide

theorem data_append (a b : String) : (a ++ b).data = a.data ++ b.data := by
  cases a; cases b; rfl

/-- C3: `downloadFile` never raises — failure is reported only through the
returned `DownloadResult`: a non-ok HTTP response yields a failure result
whose message contains the numeric status and the status text, a thrown
network error or filesystem write error yields a failure result carrying
the exception's message (or its string form when it is not an `Error`). -/
theorem downloadFile_error_reporting (w : World) (url filepath : String) (st : RunState) :
    (∀ r, w.fetch url = .resp r → r.ok = false →
      (downloadFile w url filepath st).1.success = false ∧
      ∃ msg, (downloadFile w url filepath st).1.error = some msg ∧
        (∃ a b, msg.data = a ++ (toString r.status).data ++ b) ∧
        (∃ a b, msg.data = a ++ r.statusText.data ++ b)) ∧
    (∀ e, w.fetch url = .throws e →
      (downloadFile w url filepath st).1 =
        { success := false, error := some (errMessage e) }) ∧
    (∀ r e, w.fetch url = .resp r → r.ok = true → w.writeErr filepath = some e →
      (downloadFile w url filepath st).1 =
        { success := false, error := some (errMessage e) }) := by
  refine ⟨?_, ?_, ?_⟩
  · intro r hr hok
    unfold downloadFile downloadFileTry
    rw [hr]
    simp only [hok, Bool.not_false, if_true]
    refine ⟨by trivial, "Failed to download: " ++ toString r.status ++ " " ++ r.statusText,
      by trivial, ⟨"Failed to download: ".data, (" " ++ r.statusText).data, ?_⟩,
      ⟨("Failed to download: " ++ toString r.status ++ " ").data, [], ?_⟩⟩
    · simp [data_append, List.append_assoc]
    · simp [data_append, List.append_assoc]
  · intro e he
    unfold downloadFile downloadFileTry
    rw [he]
  · intro r e hr hok hw
    unfold downloadFile downloadFileTry
    rw [hr]
    simp only [hok, Bool.not_true, if_false, hw]
    rfl

/-- Witness for C3: against the 404 URL of `wOk`, the result is a failure
whose message contains `404` and `Not Found`. -/
theorem downloadFile_error_reporting_witness :
    (downloadFile wOk "http://404" "p" initState).1.success = false ∧
    ∃ msg, (downloadFile wOk "http://404" "p" initState).1.error = some msg ∧
      (∃ a b, msg.data = a ++ (toString (404 : Nat)).data ++ b) ∧
      (∃ a b, msg.data = a ++ "Not Found".data ++ b) :=
  (downloadFile_error_reporting wOk "http://404" "p" initState).1
    { ok := false, status := 404, statusText := "Not Found", bodyBytes := [],
      bodyText := "" } rfl rfl

/-- C4: when the GET succeeds with an ok status and the filesystem write
does not throw, `downloadFile` writes exactly the body bytes to the
destination path — a read of the path now returns exactly those bytes,
whatever the path held before — and returns a success result. -/
theorem downloadFile_success_writes (w : World) (url filepath : String)
    (st : RunState) (r : FetchResponse)
    (h1 : w.fetch url = .resp r) (h2 : r.ok = true)
    (h3 : w.writeErr filepath = none) :
    (downloadFile w url filepath st).1 = { success := true, error := none } ∧
    fsRead (downloadFile w url filepath st).2.fs filepath =
      some (.bytes r.bodyBytes) := by
  unfold downloadFile downloadFileTry
  rw [h1]
  simp only [h2, Bool.not_true, if_false, h3]
  exact ⟨rfl, by simp [fsRead, List.lookup]⟩

/-- Witness for C4: downloading the always-ok URL of `wOk` over a
filesystem that already holds other content at the destination returns
success and leaves the body bytes `[9]` at the destination. -/
theorem downloadFile_success_writes_witness :
    (downloadFile wOk "http://ok" "dest"
      { fs := [("dest", .text "old")], log := [], downloads := [] }).1 =
      { success := true, error := none } ∧
    fsRead (downloadFile wOk "http://ok" "dest"
      { fs := [("dest", .text "old")], log := [], downloads := [] }).2.fs "dest" =
      some (.bytes [9]) :=
  downloadFile_success_writes wOk "http://ok" "dest"
    { fs := [("dest", .text "old")], log := [], downloads := [] }
    { ok := true, status := 200, statusText := "OK", bodyBytes := [9],
      bodyText := "" } rfl rfl rfl

/-- C9: `backupPodcast` returns normally for every world (it is a total
function of the oracle environment); a feed fetch exception or a feed
parse failure is caught by the top-level handler, logged as the fatal
`Error during backup:` line, and the run ends with no file written, no
download attempted, and no episode processed. -/
theorem backupPodcast_fatal_caught (w : World) (rssUrl outputDir : String) :
    (∀ e, w.fetch rssUrl = .throws e →
      backupPodcast w rssUrl outputDir =
        { fs := [], log := ["Error during backup: " ++ errMessage e],
          downloads := [] }) ∧
    (∀ r e, w.fetch rssUrl = .resp r → parseRSSFeed w r.bodyText = .error e →
      backupPodcast w rssUrl outputDir =
        { fs := [], log := ["Error during backup: " ++ errMessage e],
          downloads := [] }) := by
  constructor
  · intro e he
    unfold backupPodcast backupPodcastTry
    rw [he]
    rfl
  · intro r e hr hp
    unfold backupPodcast backupPodcastTry
    rw [hr]
    dsimp only
    rw [hp]
    rfl

/-- Witness for C9: in the world whose every fetch throws `boom`, the run
ends normally with exactly the fatal log line and nothing written. -/
theorem backupPodcast_fatal_caught_witness :
    backupPodcast wFatal "https://feed" "./out" =
      { fs := [], log := ["Error during backup: " ++ errMessage (.error "boom")],
        downloads := [] } :=
  (backupPodcast_fatal_caught wFatal "https://feed" "./out").1 (.error "boom") rfl

/-- C5 evaluated at the failing input: a feed with exactly one item — the
generic XML-to-object layer returns the item object itself, not a
one-element array — makes `parseRSSFeed` throw (`.map` is not a function
on the object) instead of returning a one-element sequence, and the whole
run aborts with the fatal line and zero episodes processed. -/
theorem parseRSSFeed_single_item_throws :
    parseRSSFeed wC5 "FEEDXML" = .error (.error "items.map is not a function") ∧
    backupPodcast wC5 "https://feed" "./out" =
      { fs := [], log := ["Error during backup: items.map is not a function"],
        downloads := [] } := by
  constructor <;> rfl

/-- Counterexample to C6 as stated: an item whose `itunes:season` text is
`"abc"` — present and truthy but not a parseable number — produces an
episode whose `season` field is present and equal to `NaN`, where the
claim requires the field to be omitted entirely. -/
theorem season_nan_counterexample :
    (parseItem itemC6).map PodcastEpisode.season = .ok (some JSNum.nan) := by
  rfl

theorem getField_obj (fl : List (String × JSValue)) (k : String) :
    getField (.obj fl) k = .ok ((fl.lookup k).getD .undefined) := rfl

theorem optChainGet_isOk (v : JSValue) (k : String) :
    ∃ u, optChainGet v k = .ok u := by
  cases v <;> simp [optChainGet, getField]

/-- C6 amended: for every feed item object that parses successfully, the
`season` (resp. `episode`) field is present exactly when the item's
`itunes:season` (resp. `itunes:episode`) value is truthy, and is then
`parseInt` of that value — the parsed (possibly negative) integer when a
leading integer exists, `NaN` otherwise; an absent or falsy value leaves
the field omitted from the record. -/
theorem season_episode_extraction (fl : List (String × JSValue)) (ep : PodcastEpisode)
    (h : parseItem (.obj fl) = .ok ep) :
    ep.season =
      (if truthy ((fl.lookup "itunes:season").getD .undefined) then
        some (jsParseInt ((fl.lookup "itunes:season").getD .undefined)) else none) ∧
    ep.episode =
      (if truthy ((fl.lookup "itunes:episode").getD .undefined) then
        some (jsParseInt ((fl.lookup "itunes:episode").getD .undefined)) else none) := by
  unfold parseItem at h
  obtain ⟨u, hu⟩ := optChainGet_isOk ((fl.lookup "itunes:image").getD .undefined) "@href"
  simp only [getField_obj, Bind.bind, Except.bind, hu] at h
  cases hg : getField ((fl.lookup "guid").getD .undefined) "#text" with
  | error e =>
    rw [hg] at h
    cases h
  | ok gt =>
    rw [hg] at h
    cases he : getField ((fl.lookup "enclosure").getD .undefined) "@url" with
    | error e =>
      rw [he] at h
      cases h
    | ok au =>
      rw [he] at h
      cases h
      exact ⟨rfl, rfl⟩

/-- Witness for the amended C6: the concrete item with `itunes:season`
`"3"` parses, and its season field is exactly what the extraction rule
prescribes (namely `some 3`). -/
theorem season_episode_extraction_witness :
    parseItem (.obj flC6w) = .ok epC6w ∧
    epC6w.season =
      (if truthy ((flC6w.lookup "itunes:season").getD .undefined) then
        some (jsParseInt ((flC6w.lookup "itunes:season").getD .undefined)) else none) ∧
    epC6w.season = some (.int 3) :=
  ⟨by rfl, (season_episode_extraction flC6w epC6w (by rfl)).1, by rfl⟩

theorem mk_data (s : String) : String.mk s.data = s := by
  cases s; rfl

theorem splitChars_ne_nil (sep : Char) (l : List Char) : splitChars sep l ≠ [] := by
  induction l with
  | nil => simp [splitChars]
  | cons c cs ih =>
    unfold splitChars
    by_cases h : c = sep
    · simp [h]
    · rw [if_neg h]
      cases hs : splitChars sep cs <;> simp

theorem splitChars_no_sep (sep : Char) (l : List Char) (h : sep ∉ l) :
    splitChars sep l = [l] := by
  induction l with
  | nil => rfl
  | cons c cs ih =>
    have hc : ¬ c = sep := fun he => h (he ▸ List.mem_cons_self c cs)
    have hcs : sep ∉ cs := fun hm => h (List.mem_cons_of_mem c hm)
    unfold splitChars
    rw [if_neg hc, ih hcs]

theorem splitChars_two_of_mem (sep : Char) (l : List Char) (h : sep ∈ l) :
    2 ≤ (splitChars sep l).length := by
  induction l with
  | nil => cases h
  | cons c cs ih =>
    unfold splitChars
    by_cases hc : c = sep
    · rw [if_pos hc]
      have : 1 ≤ (splitChars sep cs).length := by
        cases hs : splitChars sep cs with
        | nil => exact absurd hs (splitChars_ne_nil sep cs)
        | cons a t => simp
      simp only [List.length_cons]
      omega
    · rw [if_neg hc]
      have hm : sep ∈ cs := by
        cases h with
        | head => exact absurd rfl hc
        | tail _ hm => exact hm
      cases hs : splitChars sep cs with
      | nil => exact absurd hs (splitChars_ne_nil sep cs)
      | cons a t =>
        have := ih hm
        rw [hs] at this
        simp only [List.length_cons] at this ⊢
        omega

theorem splitChars_getLast_append_sep (sep : Char) (r : List Char) :
    (splitChars sep (r ++ [sep])).getLast? = some [] := by
  induction r with
  | nil => simp [splitChars]
  | cons c r' ih =>
    have hne := splitChars_ne_nil sep (r' ++ [sep])
    show (splitChars sep (c :: (r' ++ [sep]))).getLast? = some []
    unfold splitChars
    by_cases hc : c = sep
    · rw [if_pos hc]
      cases hs : splitChars sep (r' ++ [sep]) with
      | nil => exact absurd hs hne
      | cons a t =>
        rw [List.getLast?_cons_cons]
        rw [hs] at ih
        exact ih
    · rw [if_neg hc]
      have hmem : sep ∈ r' ++ [sep] := by simp
      have h2 := splitChars_two_of_mem sep (r' ++ [sep]) hmem
      cases hs : splitChars sep (r' ++ [sep]) with
      | nil => exact absurd hs hne
      | cons a t =>
        cases t with
        | nil => rw [hs] at h2; simp at h2
        | cons b t' =>
          rw [List.getLast?_cons_cons]
          rw [hs] at ih
          rw [List.getLast?_cons_cons] at ih
          exact ih

theorem imageExtOf_no_dot (s : String) (h : ('.' : Char) ∉ s.data) (hnz : s ≠ "") :
    imageExtOf s = s := by
  unfold imageExtOf
  rw [splitChars_no_sep _ _ h]
  simp only [List.getLast?_singleton, Option.getD_some, mk_data]
  rw [if_neg hnz]

theorem imageExtOf_ends_dot (s : String) (r : List Char) (h : s.data = r ++ ['.']) :
    imageExtOf s = "jpg" := by
  unfold imageExtOf
  rw [h, splitChars_getLast_append_sep]
  rfl

theorem fsRead_cons_ne_none {fs : FS} {p q : String} {c : FileContent}
    (h : fsRead fs q ≠ none) : fsRead ((p, c) :: fs) q ≠ none := by
  unfold fsRead at *
  simp only [List.lookup]
  split
  · simp
  · exact h

theorem downloadFileTry_downloads (w : World) (url p : String) (st st1 : RunState)
    (h : downloadFileTry w url p st = .ok st1) : st1.downloads = st.downloads := by
  unfold downloadFileTry at h
  cases hf : w.fetch url with
  | throws e => rw [hf] at h; cases h
  | resp r =>
    rw [hf] at h
    by_cases hok : r.ok
    · simp only [hok, Bool.not_true, if_false] at h
      cases hw : w.writeErr p with
      | some e => rw [hw] at h; cases h
      | none =>
        rw [hw] at h
        cases h
        rfl
    · simp only [Bool.not_eq_true] at hok
      simp only [hok, Bool.not_false, if_true] at h
      cases h

theorem downloadFileTry_fs (w : World) (url p : String) (st st1 : RunState)
    (h : downloadFileTry w url p st = .ok st1) :
    ∃ b, st1.fs = (p, FileContent.bytes b) :: st.fs := by
  unfold downloadFileTry at h
  cases hf : w.fetch url with
  | throws e => rw [hf] at h; cases h
  | resp r =>
    rw [hf] at h
    by_cases hok : r.ok
    · simp only [hok, Bool.not_true, if_false] at h
      cases hw : w.writeErr p with
      | some e => rw [hw] at h; cases h
      | none =>
        rw [hw] at h
        cases h
        exact ⟨r.bodyBytes, rfl⟩
    · simp only [Bool.not_eq_true] at hok
      simp only [hok, Bool.not_false, if_true] at h
      cases h

theorem downloadFile_downloads (w : World) (url p : String) (st : RunState) :
    (downloadFile w url p st).2.downloads = (url, p) :: st.downloads := by
  unfold downloadFile
  dsimp only
  cases h : downloadFileTry w url p { st with downloads := (url, p) :: st.downloads } with
  | ok st1 =>
    simpa using downloadFileTry_downloads w url p _ _ h
  | error e =>
    rfl

theorem downloadFile_fs_mono (w : World) (url p : String) (st : RunState)
    (q : String) (h : fsRead st.fs q ≠ none) :
    fsRead (downloadFile w url p st).2.fs q ≠ none := by
  unfold downloadFile
  dsimp only
  cases hd : downloadFileTry w url p { st with downloads := (url, p) :: st.downloads } with
  | ok st1 =>
    obtain ⟨b, hb⟩ := downloadFileTry_fs w url p _ _ hd
    show fsRead st1.fs q ≠ none
    rw [hb]
    exact fsRead_cons_ne_none h
  | error e =>
    exact h

theorem jsSplitDotPop_str (s : String) :
    jsSplitDotPop (.str s) =
      .ok (.str (String.mk ((splitChars '.' s.data).getLast?.getD []))) := by
  unfold jsSplitDotPop
  cases h : (splitChars '.' s.data).getLast? with
  | none =>
    exact absurd (List.getLast?_eq_none_iff.mp h) (splitChars_ne_nil '.' s.data)
  | some part => simp [h]

theorem jsOr_str_jpg (v : String) :
    jsToString (jsOr (.str v) (.str "jpg")) = if v = "" then "jpg" else v := by
  unfold jsOr truthy
  by_cases h : v = ""
  · simp [h, jsToString]
  · simp [h, jsToString]

theorem ext_eq_imageExtOf (s : String) :
    jsToString (jsOr (.str (String.mk ((splitChars '.' s.data).getLast?.getD [])))
      (.str "jpg")) = imageExtOf s := by
  rw [jsOr_str_jpg]
  unfold imageExtOf
  rfl

theorem imageStep_str (w : World) (imageDir base : String) (ep : PodcastEpisode)
    (st : RunState) (s : String) (hs : ep.imageUrl = .str s) :
    ∃ st1, imageStep w imageDir base ep st = .ok st1 ∧
      st1.downloads = (s, pathJoin imageDir (base ++ "." ++ imageExtOf s)) :: st.downloads ∧
      (∀ q, fsRead st.fs q ≠ none → fsRead st1.fs q ≠ none) := by
  unfold imageStep
  rw [hs, jsSplitDotPop_str]
  dsimp only
  rw [ext_eq_imageExtOf]
  have hurl : jsToString (JSValue.str s) = s := rfl
  rw [hurl]
  by_cases hsucc : (downloadFile w s (pathJoin imageDir (base ++ "." ++ imageExtOf s)) st).1.success = true
  · simp only [hsucc, if_true]
    refine ⟨_, rfl, ?_, ?_⟩
    · show (downloadFile w s (pathJoin imageDir (base ++ "." ++ imageExtOf s)) st).2.downloads = _
      exact downloadFile_downloads w s _ st
    · intro q hq
      show fsRead (downloadFile w s (pathJoin imageDir (base ++ "." ++ imageExtOf s)) st).2.fs q ≠ none
      exact downloadFile_fs_mono w s _ st q hq
  · simp only [hsucc, if_false]
    refine ⟨_, rfl, ?_, ?_⟩
    · show (downloadFile w s (pathJoin imageDir (base ++ "." ++ imageExtOf s)) st).2.downloads = _
      exact downloadFile_downloads w s _ st
    · intro q hq
      show fsRead (downloadFile w s (pathJoin imageDir (base ++ "." ++ imageExtOf s)) st).2.fs q ≠ none
      exact downloadFile_fs_mono w s _ st q hq

theorem jsonStep_stateOf_downloads (w : World) (jsonDir base : String)
    (ep : PodcastEpisode) (st : RunState) :
    (stateOf (jsonStep w jsonDir base ep st)).downloads = st.downloads := by
  unfold jsonStep stateOf
  dsimp only
  cases hw : w.writeErr (pathJoin jsonDir (base ++ ".json")) with
  | some e => rfl
  | none => rfl

/-- C7 amended: for an episode with a string title and a non-empty string
image URL `s`, the orchestrator requests the image at
`images/{baseFilename}.{ext}` where `ext` is the last `.`-separated
segment of `s`, with `"jpg"` used when that segment is empty (URL ending
in a dot); when `s` contains no dot the segment is `s` itself — not
`"jpg"`. -/
theorem image_ext_from_url (w : World) (audioDir imageDir jsonDir : String)
    (ep : PodcastEpisode) (st : RunState) (t s : String)
    (ht : ep.title = .str t) (hs : ep.imageUrl = .str s) (hnz : s ≠ "") :
    ((s, pathJoin imageDir (sanitizeFilename t ++ "." ++ imageExtOf s)) ∈
      (stateOf (processEpisode w audioDir imageDir jsonDir ep st)).downloads) ∧
    (('.' : Char) ∉ s.data → imageExtOf s = s) ∧
    (∀ r : List Char, s.data = r ++ ['.'] → imageExtOf s = "jpg") := by
  refine ⟨?_, fun h => imageExtOf_no_dot s h hnz, fun r h => imageExtOf_ends_dot s r h⟩
  unfold processEpisode
  rw [ht]
  dsimp only [sanitizeFilenameJS]
  have himg : truthy ep.imageUrl = true := by rw [hs]; simp [truthy, hnz]
  rw [himg, if_pos rfl]
  obtain ⟨st3, h3, hdl, _⟩ := imageStep_str w imageDir (sanitizeFilename t) ep
    (audioStep w audioDir (sanitizeFilename t) ep
      (logLine st ("Processing episode: " ++ jsToString (JSValue.str t)))) s hs
  rw [h3]
  show _ ∈ (stateOf (jsonStep w jsonDir (sanitizeFilename t) ep st3)).downloads
  rw [jsonStep_stateOf_downloads, hdl]
  exact List.mem_cons_self _ _

/-- Counterexample to C7 as stated: for the non-empty image URL
`"imagefile"`, which contains no dot, the claim prescribes extension
`"jpg"`; the run instead requests and stores
`images/episode_one.imagefile`, and never touches
`images/episode_one.jpg`. -/
theorem image_ext_counterexample :
    ("imagefile", "./out/images/episode_one.imagefile") ∈
      (backupPodcast wC7 "https://feed" "./out").downloads ∧
    fsRead (backupPodcast wC7 "https://feed" "./out").fs
      "./out/images/episode_one.imagefile" = some (.bytes [7]) ∧
    fsRead (backupPodcast wC7 "https://feed" "./out").fs
      "./out/images/episode_one.jpg" = none ∧
    ("imagefile", "./out/images/episode_one.jpg") ∉
      (backupPodcast wC7 "https://feed" "./out").downloads := by
  decide

/-- Witness for the amended C7: for the dotted URL `"pic.png"` the image
request path carries extension `png`. -/
theorem image_ext_from_url_witness :
    (("pic.png", pathJoin "./out/images" (sanitizeFilename "T" ++ "." ++ imageExtOf "pic.png")) ∈
      (stateOf (processEpisode wOk "./out/audio" "./out/images" "./out/json" epC7w initState)).downloads) ∧
    imageExtOf "pic.png" = "png" :=
  ⟨(image_ext_from_url wOk "./out/audio" "./out/images" "./out/json" epC7w initState
      "T" "pic.png" rfl rfl (by decide)).1, by rfl⟩

theorem backupPodcast_eq_of_fetch_throws (w : World) (rssUrl outputDir : String)
    (e : JSError) (he : w.fetch rssUrl = .throws e) :
    backupPodcast w rssUrl outputDir =
      { fs := [], log := ["Error during backup: " ++ errMessage e],
        downloads := [] } := by
  unfold backupPodcast backupPodcastTry
  rw [he]
  rfl

theorem backupPodcast_eq_of_parse_error (w : World) (rssUrl outputDir : String)
    (r : FetchResponse) (e : JSError) (hr : w.fetch rssUrl = .resp r)
    (hp : parseRSSFeed w r.bodyText = .error e) :
    backupPodcast w rssUrl outputDir =
      { fs := [], log := ["Error during backup: " ++ errMessage e],
        downloads := [] } := by
  unfold backupPodcast backupPodcastTry
  rw [hr]
  dsimp only
  rw [hp]
  rfl

theorem parseItem_missing_enclosure (fl : List (String × JSValue)) (g : JSValue)
    (hguid : fl.lookup "guid" = some g) (hg : notNullish g = true)
    (henc : fl.lookup "enclosure" = none) :
    ∃ e, parseItem (.obj fl) = .error e := by
  unfold parseItem
  obtain ⟨u, hu⟩ := optChainGet_isOk ((fl.lookup "itunes:image").getD .undefined) "@href"
  simp only [getField_obj, Bind.bind, Except.bind, hu, hguid, henc,
    Option.getD_some, Option.getD_none]
  cases g with
  | undefined => simp [notNullish] at hg
  | null => simp [notNullish] at hg
  | num n => exact ⟨_, rfl⟩
  | str s => exact ⟨_, rfl⟩
  | obj fl2 => exact ⟨_, rfl⟩
  | arr l => exact ⟨_, rfl⟩

theorem mapItems_error_of_mem (pre post : List JSValue) (x : JSValue)
    (e0 : JSError) (hx : parseItem x = .error e0) :
    ∃ e, mapItems (pre ++ x :: post) = .error e := by
  induction pre with
  | nil =>
    refine ⟨e0, ?_⟩
    simp [mapItems, hx, Bind.bind, Except.bind]
  | cons a pre' ih =>
    cases ha : parseItem a with
    | error ea =>
      refine ⟨ea, ?_⟩
      simp [mapItems, ha, Bind.bind, Except.bind]
    | ok b =>
      obtain ⟨e, he⟩ := ih
      refine ⟨e, ?_⟩
      simp [mapItems, ha, he, Bind.bind, Except.bind]

/-- C10: if any item of the feed lacks an `enclosure` element (and is
otherwise readable: its `guid` is present and non-nullish), `parseItem`
throws reading `@url` of `undefined`; since parsing runs before the
episode loop, the exception reaches only the orchestrator's top-level
handler, so the run ends with the single fatal log line and an empty
filesystem and download trace — zero episodes processed, including the
well-formed ones. -/
theorem missing_enclosure_fatal (w : World) (rssUrl outputDir : String)
    (r : FetchResponse) (doc : JSValue) (pre post : List JSValue)
    (fl : List (String × JSValue)) (g : JSValue)
    (hf : w.fetch rssUrl = .resp r)
    (hx : w.parseXml r.bodyText = .ok doc)
    (hi : channelItems doc = .ok (.arr (pre ++ JSValue.obj fl :: post)))
    (hguid : fl.lookup "guid" = some g) (hg : notNullish g = true)
    (henc : fl.lookup "enclosure" = none) :
    (∃ e, parseRSSFeed w r.bodyText = .error e) ∧
    (∃ e, backupPodcast w rssUrl outputDir =
      { fs := [], log := ["Error during backup: " ++ errMessage e],
        downloads := [] }) := by
  obtain ⟨e0, he0⟩ := parseItem_missing_enclosure fl g hguid hg henc
  obtain ⟨e, he⟩ := mapItems_error_of_mem pre post (JSValue.obj fl) e0 he0
  have hp : parseRSSFeed w r.bodyText = .error e := by
    unfold parseRSSFeed
    simp only [hx, Bind.bind, Except.bind, hi]
    exact he
  exact ⟨⟨e, hp⟩, ⟨e, backupPodcast_eq_of_parse_error w rssUrl outputDir r e hf hp⟩⟩

/-- Witness for C10: in the two-item feed whose second item lacks an
enclosure, parsing fails and the whole run aborts with nothing written —
item 1 was well-formed and is still not processed. -/
theorem missing_enclosure_fatal_witness :
    (∃ e, parseRSSFeed wC10 "FEEDXML" = .error e) ∧
    (∃ e, backupPodcast wC10 "https://feed" "./out" =
      { fs := [], log := ["Error during backup: " ++ errMessage e],
        downloads := [] }) :=
  missing_enclosure_fatal wC10 "https://feed" "./out"
    { ok := true, status := 200, statusText := "OK", bodyBytes := [],
      bodyText := "FEEDXML" }
    docC10 [itemC1a] [] flNoEnc (.str "g2") rfl rfl rfl rfl rfl rfl

theorem audioStep_fs_mono (w : World) (aD base : String) (ep : PodcastEpisode)
    (st : RunState) (q : String) (h : fsRead st.fs q ≠ none) :
    fsRead (audioStep w aD base ep st).fs q ≠ none := by
  unfold audioStep
  by_cases ha : truthy ep.audioUrl = true
  · rw [if_pos ha]
    dsimp only
    by_cases hsucc : (downloadFile w (jsToString ep.audioUrl)
        (pathJoin aD (base ++ ".mp3")) st).1.success = true
    · simp only [hsucc, if_true]
      exact downloadFile_fs_mono w _ _ st q h
    · simp only [hsucc, if_false]
      exact downloadFile_fs_mono w _ _ st q h
  · rw [if_neg ha]
    exact h

theorem jsonStep_ok (w : World) (jD base : String) (ep : PodcastEpisode)
    (st : RunState) (hw : w.writeErr (pathJoin jD (base ++ ".json")) = none) :
    ∃ st4, jsonStep w jD base ep st = .ok st4 ∧
      st4.fs = (pathJoin jD (base ++ ".json"),
        FileContent.text (stringifyEpisode ep)) :: st.fs := by
  unfold jsonStep
  dsimp only
  rw [hw]
  exact ⟨_, rfl, rfl⟩

theorem processEpisode_ok (w : World) (aD iD jD : String) (ep : PodcastEpisode)
    (st : RunState) (t : String) (ht : ep.title = .str t)
    (him : truthy ep.imageUrl = false ∨ ∃ s, ep.imageUrl = JSValue.str s)
    (hw : w.writeErr (pathJoin jD (sanitizeFilename t ++ ".json")) = none) :
    ∃ st1, processEpisode w aD iD jD ep st = .ok st1 ∧
      (∀ q, fsRead st.fs q ≠ none → fsRead st1.fs q ≠ none) ∧
      fsRead st1.fs (pathJoin jD (sanitizeFilename t ++ ".json")) ≠ none := by
  unfold processEpisode
  rw [ht]
  dsimp only [sanitizeFilenameJS]
  by_cases himg : truthy ep.imageUrl = true
  · obtain ⟨s, hs⟩ : ∃ s, ep.imageUrl = JSValue.str s := by
      rcases him with h | h
      · rw [himg] at h; cases h
      · exact h
    rw [himg, if_pos rfl]
    obtain ⟨st3, h3, _, hmono3⟩ := imageStep_str w iD (sanitizeFilename t) ep
      (audioStep w aD (sanitizeFilename t) ep
        (logLine st ("Processing episode: " ++ jsToString (JSValue.str t)))) s hs
    rw [h3]
    obtain ⟨st4, h4, hfs4⟩ := jsonStep_ok w jD (sanitizeFilename t) ep st3 hw
    refine ⟨st4, h4, ?_, ?_⟩
    · intro q hq
      rw [hfs4]
      exact fsRead_cons_ne_none
        (hmono3 q (audioStep_fs_mono w aD (sanitizeFilename t) ep _ q hq))
    · rw [hfs4]
      unfold fsRead
      simp [List.lookup]
  · rw [if_neg himg]
    obtain ⟨st4, h4, hfs4⟩ := jsonStep_ok w jD (sanitizeFilename t) ep
      (audioStep w aD (sanitizeFilename t) ep
        (logLine st ("Processing episode: " ++ jsToString (JSValue.str t)))) hw
    refine ⟨st4, h4, ?_, ?_⟩
    · intro q hq
      rw [hfs4]
      exact fsRead_cons_ne_none
        (audioStep_fs_mono w aD (sanitizeFilename t) ep _ q hq)
    · rw [hfs4]
      unfold fsRead
      simp [List.lookup]

theorem processEpisodes_ok (w : World) (aD iD jD : String)
    (eps : List PodcastEpisode) (st : RunState)
    (hproc : ∀ ep ∈ eps, processableEpisode ep)
    (hw : ∀ ep ∈ eps, ∀ t, ep.title = JSValue.str t →
      w.writeErr (pathJoin jD (sanitizeFilename t ++ ".json")) = none) :
    ∃ st1, processEpisodes w aD iD jD eps st = .ok st1 ∧
      (∀ q, fsRead st.fs q ≠ none → fsRead st1.fs q ≠ none) ∧
      (∀ ep ∈ eps, ∀ t, ep.title = JSValue.str t →
        fsRead st1.fs (pathJoin jD (sanitizeFilename t ++ ".json")) ≠ none) := by
  induction eps generalizing st with
  | nil =>
    exact ⟨st, rfl, fun q h => h, fun ep h => absurd h (List.not_mem_nil ep)⟩
  | cons ep rest ih =>
    obtain ⟨⟨t, ht⟩, him⟩ := hproc ep (List.mem_cons_self ep rest)
    obtain ⟨st1, h1, hm1, hj1⟩ := processEpisode_ok w aD iD jD ep st t ht him
      (hw ep (List.mem_cons_self ep rest) t ht)
    unfold processEpisodes
    rw [h1]
    obtain ⟨st2, h2, hm2, hj2⟩ := ih st1
      (fun e he => hproc e (List.mem_cons_of_mem ep he))
      (fun e he => hw e (List.mem_cons_of_mem ep he))
    refine ⟨st2, h2, fun q hq => hm2 q (hm1 q hq), ?_⟩
    intro e he t' ht'
    rcases List.mem_cons.mp he with rfl | hmem
    · have : t = t' := by
        rw [ht] at ht'
        exact JSValue.str.inj ht'
      subst this
      exact hm2 _ hj1
    · exact hj2 e hmem t' ht'

/-- C8 amended: an audio or image download failure is consumed via the
returned `DownloadResult` and never prevents the episode's remaining
sub-steps or subsequent episodes; when every episode's metadata write
succeeds (and titles are strings, image URLs strings or falsy),
`json/{baseFilename}.json` is written for every episode and the completion
message is logged last, however many downloads failed.  A metadata-write
failure, by contrast, aborts the run (see the counterexample). -/
theorem backup_download_failures_do_not_abort (w : World) (rssUrl outputDir : String)
    (r : FetchResponse) (eps : List PodcastEpisode)
    (hf : w.fetch rssUrl = .resp r)
    (hp : parseRSSFeed w r.bodyText = .ok eps)
    (hproc : ∀ ep ∈ eps, processableEpisode ep)
    (hw : ∀ ep ∈ eps, ∀ t, ep.title = JSValue.str t →
      w.writeErr (pathJoin (pathJoin outputDir "json")
        (sanitizeFilename t ++ ".json")) = none) :
    (backupPodcast w rssUrl outputDir).log.head? =
      some "Backup completed successfully!" ∧
    ∀ ep ∈ eps, ∀ t, ep.title = JSValue.str t →
      fsRead (backupPodcast w rssUrl outputDir).fs
        (pathJoin (pathJoin outputDir "json") (sanitizeFilename t ++ ".json")) ≠ none := by
  unfold backupPodcast backupPodcastTry
  rw [hf]
  dsimp only
  rw [hp]
  dsimp only
  obtain ⟨st1, h1, hm1, hj1⟩ := processEpisodes_ok w (pathJoin outputDir "audio")
    (pathJoin outputDir "images") (pathJoin outputDir "json") eps initState hproc hw
  rw [h1]
  exact ⟨rfl, fun ep h t ht => hj1 ep h t ht⟩

/-- Counterexample to C8 as stated: a failure of the metadata-write
sub-step is not confined to its episode — when writing episode 1's JSON
file throws, episode 2 is never processed, neither JSON file exists, the
completion message is never logged, and the run ends on the fatal line. -/
theorem metadata_write_failure_aborts :
    "Processing episode: Episode Two" ∉ (backupPodcast wC8 "https://feed" "./out").log ∧
    fsRead (backupPodcast wC8 "https://feed" "./out").fs
      "./out/json/episode_two.json" = none ∧
    fsRead (backupPodcast wC8 "https://feed" "./out").fs
      "./out/json/episode_one.json" = none ∧
    "Backup completed successfully!" ∉ (backupPodcast wC8 "https://feed" "./out").log ∧
    (backupPodcast wC8 "https://feed" "./out").log.head? =
      some "Error during backup: disk full" := by
  decide

/-- Witness for the amended C8: a run whose only episode's audio download
fails with HTTP 404 still writes that episode's JSON file and logs the
completion message. -/
theorem backup_download_failures_do_not_abort_witness :
    (backupPodcast wC8w "https://feed" "./out").log.head? =
      some "Backup completed successfully!" ∧
    fsRead (backupPodcast wC8w "https://feed" "./out").fs
      (pathJoin (pathJoin "./out" "json")
        (sanitizeFilename "Episode One" ++ ".json")) ≠ none := by
  have h := backup_download_failures_do_not_abort wC8w "https://feed" "./out"
    { ok := true, status := 200, statusText := "OK", bodyBytes := [],
      bodyText := "FEEDXML" } [epC1a] rfl (by rfl)
    (by
      intro ep hep
      rcases List.mem_cons.mp hep with rfl | h0
      · exact ⟨⟨"Episode One", rfl⟩, Or.inl rfl⟩
      · exact absurd h0 (List.not_mem_nil ep))
    (by
      intro ep hep t ht
      rfl)
  exact ⟨h.1, h.2 epC1a (List.mem_cons_self epC1a []) "Episode One" rfl⟩
